import Mathlib

/-!
# Verification of `command.py` (libonkyo)

A shallow embedding of the Onkyo receiver control script `src/command.py`
and proofs about it.  Bytes are modelled as `Nat`, Python byte strings as
`List Nat`, Python text strings as Lean `String`.  Python's `int()`
truncating conversion of a float quotient is modelled by `Int.tdiv`
(truncation toward zero) of the corresponding exact integer quotient; for
all values reachable in the program the double rounding of the float
intermediate never crosses an integer boundary, so the two agree.
Raised Python exceptions are modelled by `Option.none` (for pure helpers)
or by a `Term.raised` outcome (for the command handlers).
-/

namespace Onkyo

/-- ASCII encoding of a string (`bytearray(s, 'ascii')` for ASCII data):
the list of code points. -/
def asciiBytes (s : String) : List Nat := s.data.map Char.toNat

/-- `bytes.decode('ascii')`: succeeds iff every byte is below 128,
otherwise raises `UnicodeDecodeError` (modelled as `none`). -/
def decodeAscii (bs : List Nat) : Option String :=
  if bs.all (fun b => b < 128) then some ⟨bs.map Char.ofNat⟩ else none

/-- `send_command`, framing part: `compiled_command = "".join(['!1', command, '\r'])`. -/
def compiledCommand (command : String) : String :=
  String.join ["!1", command, "\r"]

/-- The bytes written to the serial port by `send_command` for a given
command string: `bytearray(compiled_command, 'ascii')`. -/
def sendFrame (command : String) : List Nat :=
  asciiBytes (compiledCommand command)

/-- Python `str.replace`, fuel-indexed so that it is structurally
recursive (the fuel starts at the length of the subject list, which is
enough for nonempty patterns: each step consumes at least one element). -/
def pyReplaceAux (pat rep : List Char) : Nat → List Char → List Char
  | _, [] => []
  | 0, l => l
  | fuel + 1, c :: rest =>
    if pat ≠ [] ∧ pat.isPrefixOf (c :: rest) then
      rep ++ pyReplaceAux pat rep fuel (rest.drop (pat.length - 1))
    else
      c :: pyReplaceAux pat rep fuel rest

/-- Python `s.replace(pat, rep)` for a nonempty pattern: replaces every
non-overlapping occurrence, scanning left to right. -/
def pyReplace (s pat rep : String) : String :=
  ⟨pyReplaceAux pat.data rep.data s.data.length s.data⟩

/-- Characters Python's `int(str, base)` strips around the digits
(ASCII whitespace as classified by `Py_UNICODE_ISSPACE`). -/
def isPySpace (c : Char) : Bool :=
  (9 ≤ c.toNat && c.toNat ≤ 13) || (28 ≤ c.toNat && c.toNat ≤ 32)

/-- Strip leading and trailing whitespace. -/
def stripSpaces (l : List Char) : List Char :=
  ((l.dropWhile isPySpace).reverse.dropWhile isPySpace).reverse

/-- Value of one hexadecimal digit (`0-9`, `a-f`, `A-F`). -/
def hexDigitVal (c : Char) : Option Nat :=
  if 48 ≤ c.toNat ∧ c.toNat ≤ 57 then some (c.toNat - 48)
  else if 97 ≤ c.toNat ∧ c.toNat ≤ 102 then some (c.toNat - 87)
  else if 65 ≤ c.toNat ∧ c.toNat ≤ 70 then some (c.toNat - 55)
  else none

/-- Value of one decimal digit. -/
def decDigitVal (c : Char) : Option Nat :=
  if 48 ≤ c.toNat ∧ c.toNat ≤ 57 then some (c.toNat - 48) else none

/-- Digits after the first one, in Python `int(str, base)` syntax: each
is a digit, or a single underscore followed by a digit. -/
def parseDigitsRest (dv : Char → Option Nat) (base : Nat) : Nat → List Char → Option Nat
  | acc, [] => some acc
  | acc, c :: rest =>
    if c = '_' then
      match rest with
      | [] => none
      | c2 :: rest2 =>
        match dv c2 with
        | none => none
        | some d => parseDigitsRest dv base (base * acc + d) rest2
    else
      match dv c with
      | none => none
      | some d => parseDigitsRest dv base (base * acc + d) rest

/-- A nonempty digit group: first character must be a digit. -/
def parseDigitsStart (dv : Char → Option Nat) (base : Nat) : List Char → Option Nat
  | [] => none
  | c :: rest =>
    match dv c with
    | none => none
    | some d => parseDigitsRest dv base d rest

/-- The part of `int(s, 16)` after the optional sign: an optional `0x` /
`0X` prefix (optionally followed by one underscore), then digits. -/
def hexAfterSign (l : List Char) : Option Nat :=
  match l with
  | c0 :: c1 :: rest =>
    if c0 = '0' ∧ (c1 = 'x' ∨ c1 = 'X') then
      match rest with
      | '_' :: rest2 => parseDigitsStart hexDigitVal 16 rest2
      | _ => parseDigitsStart hexDigitVal 16 rest
    else parseDigitsStart hexDigitVal 16 l
  | _ => parseDigitsStart hexDigitVal 16 l

/-- The optional sign in front of the digit group of `int(s, base)`,
applied to the already-whitespace-stripped character list. -/
def pyIntSigned (afterSign : List Char → Option Nat) (l : List Char) : Option Int :=
  match l with
  | [] => none
  | c :: rest =>
    if c = '-' then (afterSign rest).map (fun n => -(Int.ofNat n))
    else if c = '+' then (afterSign rest).map Int.ofNat
    else (afterSign (c :: rest)).map Int.ofNat

/-- Python `int(s, 16)`: strip whitespace, optional sign, optional `0x`
prefix, hex digits with single underscores allowed between digits.
`none` models a raised `ValueError`. -/
def pyIntHex (s : String) : Option Int :=
  pyIntSigned hexAfterSign (stripSpaces s.data)

/-- Python `int(s)` (base 10): strip whitespace, optional sign, decimal
digits with single underscores allowed between digits. -/
def pyIntDec (s : String) : Option Int :=
  pyIntSigned (parseDigitsStart decDigitVal 10) (stripSpaces s.data)

/-- Python `s.strip(ch)` for a single strip character: remove all leading
and trailing occurrences of `ch`. -/
def pyStrip (ch : Char) (s : String) : String :=
  ⟨((s.data.dropWhile (fun c => c = ch)).reverse.dropWhile (fun c => c = ch)).reverse⟩

/-- Lowercase hexadecimal digit character for a value below 16. -/
def hexLowerChar (d : Nat) : Char :=
  if d < 10 then Char.ofNat (48 + d) else Char.ofNat (87 + d)

/-- Hex digits of `n`, most significant first, fuel-indexed (fuel `n`
suffices for `n > 0`). -/
def natToHexAux : Nat → Nat → List Char → List Char
  | 0, _, acc => acc
  | fuel + 1, n, acc =>
    if n = 0 then acc else natToHexAux fuel (n / 16) (hexLowerChar (n % 16) :: acc)

/-- Lowercase hex representation of a natural number, as Python `hex`
digits (no prefix). -/
def natToHexLower (n : Nat) : List Char :=
  if n = 0 then ['0'] else natToHexAux n n []

/-- Left-pad with `'0'` to width `w`. -/
def padZero (w : Nat) (l : List Char) : List Char :=
  List.replicate (w - l.length) '0' ++ l

/-- Python `format(n, '02x')`: lowercase hex, zero-padded to total width
2; for negative numbers the sign counts toward the width and padding goes
after the sign. -/
def pyFormat02x (n : Int) : String :=
  if n < 0 then ⟨'-' :: padZero 1 (natToHexLower n.natAbs)⟩
  else ⟨padZero 2 (natToHexLower n.natAbs)⟩

/-- Python `str.upper` (ASCII). -/
def pyUpper (s : String) : String := ⟨s.data.map Char.toUpper⟩

/-- Python `str.lower` (ASCII). -/
def pyLower (s : String) : String := ⟨s.data.map Char.toLower⟩

/-- The payload extraction of `get_volume`:
`s.replace('!1MVL', '').replace('\x1a', '')`. -/
def stripVol (s : String) : String :=
  pyReplace (pyReplace s "!1MVL" "") "\x1a" ""

/-- `get_volume`, given the raw serial response: decode as ASCII, strip
the `!1MVL` prefix text and the `\x1a` terminator text, parse the rest as
hex, convert to a percentage by `dec_vol * 100 / 92` truncated
(`int(percent_vol)`).  `none` models a raised exception. -/
def get_volume (resp : List Nat) : Option Int :=
  match decodeAscii resp with
  | none => none
  | some s =>
    match pyIntHex (stripVol s) with
    | none => none
    | some dec => some (Int.tdiv (dec * 100) 92)

/-- `set_volume`, numeric part: `vol = int(vol / 100 * 92)` — truncation
toward zero of the exact quotient `vol * 92 / 100`. -/
def set_volume_level (vol : Int) : Int := Int.tdiv (vol * 92) 100

/-- `set_volume`, formatting part: `format(vol, '02x').upper()`. -/
def set_volume_param (vol : Int) : String :=
  pyUpper (pyFormat02x (set_volume_level vol))

/-- The command string `set_volume` passes to `send_command`:
`"MVL%s" % vol`. -/
def set_volume_command (vol : Int) : String :=
  "MVL" ++ set_volume_param vol

/-- The frame `set_volume` writes to the serial port. -/
def set_volume_frame (vol : Int) : List Nat :=
  sendFrame (set_volume_command vol)

/-- How a command handler terminates: fall off the end (process exit 0),
`sys.exit(code)`, or an uncaught exception (process exit nonzero). -/
inductive Term where
  | normal
  | exited (code : Nat)
  | raised
deriving DecidableEq

/-- Observable behaviour of one handler invocation: the frames written to
the serial port in order, the lines printed to stdout in order, and how
the handler terminated. -/
structure Outcome where
  sent : List (List Nat)
  printed : List String
  term : Term
deriving DecidableEq

/-- Quote character chosen by Python `repr` for a bytes object. -/
def bytesReprQuote (bs : List Nat) : Char :=
  if bs.contains 39 && !(bs.contains 34) then '"' else '\''

/-- One byte as rendered inside Python `repr` of a bytes object. -/
def bytesReprByte (q : Char) (b : Nat) : List Char :=
  if b = 92 then ['\\', '\\']
  else if b = q.toNat then ['\\', q]
  else if b = 9 then ['\\', 't']
  else if b = 10 then ['\\', 'n']
  else if b = 13 then ['\\', 'r']
  else if 32 ≤ b && b < 127 then [Char.ofNat b]
  else ['\\', 'x', hexLowerChar (b / 16), hexLowerChar (b % 16)]

/-- Python `repr` of a bytes object, which is what `"%s" % response`
interpolates for a `bytes` value in Python 3. -/
def pyBytesRepr (bs : List Nat) : String :=
  let q := bytesReprQuote bs
  ⟨'b' :: q :: ((bs.map (bytesReprByte q)).flatten ++ [q])⟩

/-- The `power` handler.  `resp` is the raw serial response the receiver
would give to a query; it is only consulted on the `status` path. -/
def power (state : String) (resp : List Nat) : Outcome :=
  if state = "on" then ⟨[sendFrame "PWR01"], [], .normal⟩
  else if state = "off" then ⟨[sendFrame "PWR00"], [], .normal⟩
  else if state = "toggle" then ⟨[sendFrame "PWRQSTN"], [], .normal⟩
  else if state = "status" then
    ⟨[sendFrame "PWRQSTN"],
      [if resp = asciiBytes "!1PWR00\x1a" then "Status: Off"
       else if resp = asciiBytes "!1PWR01\x1a" then "Status: On"
       else "Status: Unknown (" ++ pyBytesRepr resp ++ ")"],
      .normal⟩
  else ⟨[], ["Error: Invalid state sent to command 'power'"], .normal⟩

/-- The `volume` handler, `status` branch: query, then print the
percentage; a parse failure inside `get_volume` raises after the query
transaction has already happened. -/
def volume_status (resp : List Nat) : Outcome :=
  match get_volume resp with
  | some v => ⟨[sendFrame "MVLQSTN"], ["Volume: " ++ toString v], .normal⟩
  | none => ⟨[sendFrame "MVLQSTN"], [], .raised⟩

/-- The `volume` handler, `+` branch: `vol = get_volume(args)`, then
`vol = vol + int(args.state.strip('+'))`, then `set_volume(vol, args)`.
The query frame is written before the delta is parsed. -/
def volume_plus (state : String) (resp : List Nat) : Outcome :=
  match get_volume resp with
  | none => ⟨[sendFrame "MVLQSTN"], [], .raised⟩
  | some cur =>
    match pyIntDec (pyStrip '+' state) with
    | none => ⟨[sendFrame "MVLQSTN"], [], .raised⟩
    | some d => ⟨[sendFrame "MVLQSTN", set_volume_frame (cur + d)], [], .normal⟩

/-- The `volume` handler, `-` branch: like the `+` branch with
subtraction. -/
def volume_minus (state : String) (resp : List Nat) : Outcome :=
  match get_volume resp with
  | none => ⟨[sendFrame "MVLQSTN"], [], .raised⟩
  | some cur =>
    match pyIntDec (pyStrip '-' state) with
    | none => ⟨[sendFrame "MVLQSTN"], [], .raised⟩
    | some d => ⟨[sendFrame "MVLQSTN", set_volume_frame (cur - d)], [], .normal⟩

/-- The `volume` handler, absolute branch: `vol = int(args.state)`,
rejected with `sys.exit(1)` when outside `[0, 100]`, otherwise passed to
`set_volume`. -/
def volume_abs (state : String) : Outcome :=
  match pyIntDec state with
  | none => ⟨[], [], .raised⟩
  | some v =>
    if v < 0 ∨ v > 100 then ⟨[], ["Invalid volume: " ++ state], .exited 1⟩
    else ⟨[set_volume_frame v], [], .normal⟩

/-- The `volume` handler.  `resp` is the raw serial response to the
`MVLQSTN` query, consulted on the `status` and relative paths.  The
branch guard for the absolute path is `int(args.state[0]) in
range(0, 10)`: indexing an empty state raises, and a first character
that is not a digit makes `int` raise before any branch is taken. -/
def volume (state : String) (resp : List Nat) : Outcome :=
  if state = "status" then volume_status resp
  else
    match state.data with
    | [] => ⟨[], [], .raised⟩
    | c :: _ =>
      if c = '+' then volume_plus state resp
      else if c = '-' then volume_minus state resp
      else
        match pyIntDec ⟨[c]⟩ with
        | none => ⟨[], [], .raised⟩
        | some d0 =>
          if 0 ≤ d0 ∧ d0 < 10 then volume_abs state
          else ⟨[], ["Unknown argument: " ++ state], .exited 1⟩

/-- The `mute` handler. -/
def mute (state : String) (resp : List Nat) : Outcome :=
  if state = "mute" ∨ state = "on" then
    ⟨[sendFrame "AMT01"], ["Mute: On (muted)"], .normal⟩
  else if state = "unmute" ∨ state = "off" then
    ⟨[sendFrame "AMT00"], ["Mute: Off (unmuted)"], .normal⟩
  else if state = "status" then
    match decodeAscii resp with
    | none => ⟨[sendFrame "AMTQSTN"], [], .raised⟩
    | some s =>
      ⟨[sendFrame "AMTQSTN"],
        (if s = "!1AMT00\x1a" then ["Status: Off (unmuted)"] else []) ++
          (if s = "!1AMT01\x1a" then ["Status: On (muted)"] else []),
        .normal⟩
  else ⟨[], ["Invalid command: " ++ state], .exited 1⟩

/-- The alias chain of `r_input`: which `SLI` code, if any, a lowercased
state string selects. -/
def inputAliasCode (s : String) : Option String :=
  if s = "wii" ∨ s = "vcr" ∨ s = "dvr" ∨ s = "vcr/dvr" then some "SLI00"
  else if s = "cable" then some "SLI01"
  else if s = "xbox" ∨ s = "xbox360" ∨ s = "360" then some "SLI02"
  else if s = "pc" then some "SLI03"
  else if s = "linux" ∨ s = "aux2" then some "SLI04"
  else none

/-- The payload extraction of the `r_input` status path:
`s.replace('!1', '').replace('\x1a', '')`. -/
def stripInput (s : String) : String :=
  pyReplace (pyReplace s "!1" "") "\x1a" ""

/-- The status lines printed by the `r_input` status path (five
independent `if` statements in the source). -/
def inputStatusLines (c : String) : List String :=
  (if c = "SLI00" then ["Current input: Wii (VCR/DVR)"] else []) ++
    (if c = "SLI01" then ["Current input: Cable/Satellite"] else []) ++
    (if c = "SLI02" then ["Current input: XBox 360 (Game/TV)"] else []) ++
    (if c = "SLI03" then ["Current input: PC (Aux1)"] else []) ++
    (if c = "SLI04" then ["Current input: Linux (Aux2)"] else [])

/-- The `r_input` status branch: query, decode, strip, and print any
matching status line. -/
def r_input_status (resp : List Nat) : Outcome :=
  match decodeAscii resp with
  | none => ⟨[sendFrame "SLIQSTN"], [], .raised⟩
  | some s => ⟨[sendFrame "SLIQSTN"], inputStatusLines (stripInput s), .normal⟩

/-- The alias chain that runs after the (plain `if`, not `elif`) status
branch of `r_input`: if the status branch raised, nothing more runs;
otherwise a recognized lowercased alias sends one more frame and an
unrecognized one sends nothing. -/
def withAlias (state : String) (part : Outcome) : Outcome :=
  match part.term with
  | .raised => part
  | _ =>
    match inputAliasCode (pyLower state) with
    | some code => ⟨part.sent ++ [sendFrame code], part.printed, .normal⟩
    | none => ⟨part.sent, part.printed, .normal⟩

/-- The `r_input` handler. -/
def r_input (state : String) (resp : List Nat) : Outcome :=
  withAlias state (if state = "status" then r_input_status resp else ⟨[], [], .normal⟩)

/-- The statements of `send_command` that touch the serial handle. -/
inductive SerialStep where
  | opened
  | wrote
  | readBytes
  | closed
deriving DecidableEq

/-- Control flow of `send_command` after a successful open:
`ser.write(...)`, `ser.read(size=10)`, `ser.close()` in straight line
with no `try`/`finally`.  An exception raised by `write` or `read`
propagates immediately, skipping the remaining statements — in
particular skipping `close`.  Returns the steps performed, in order,
and whether an exception escaped. -/
def send_command_run (writeFails readFails : Bool) : List SerialStep × Bool :=
  if writeFails then ([.opened], true)
  else if readFails then ([.opened, .wrote], true)
  else ([.opened, .wrote, .readBytes, .closed], false)

/-- Whether a character is a hexadecimal digit. -/
def isHexDigitChar (c : Char) : Bool := (hexDigitVal c).isSome

/-- Value of a string of hexadecimal digits, most significant first. -/
def hexValOfDigits (l : List Char) : Nat :=
  l.foldl (fun a c => 16 * a + (hexDigitVal c).getD 0) 0

/-- The receiver grammar for an `MVL` parameter: the literal `QSTN` or
exactly two hexadecimal digits with value at most `0x5C` (92). -/
def mvlParamOk (p : String) : Bool :=
  p = "QSTN" ||
    (p.data.length = 2 && p.data.all isHexDigitChar && hexValOfDigits p.data ≤ 92)

/-- The receiver grammar for a full command string (3-letter code plus
parameter), per the documented command-code table. -/
def commandOk (c : String) : Bool :=
  let code : String := ⟨c.data.take 3⟩
  let p : String := ⟨c.data.drop 3⟩
  (code = "PWR" && (p = "00" || p = "01" || p = "QSTN")) ||
    (code = "MVL" && mvlParamOk p) ||
    (code = "AMT" && (p = "00" || p = "01" || p = "QSTN")) ||
    (code = "SLI" && (p = "00" || p = "01" || p = "02" || p = "03" || p = "04" || p = "QSTN"))

/-- A wire frame matches the grammar: ASCII, `!1` preamble, `\r`
terminator, and a command string matching the command-code table. -/
def frameOk (f : List Nat) : Bool :=
  match decodeAscii f with
  | none => false
  | some s =>
    match s.data with
    | '!' :: '1' :: rest => (rest.getLast? = some '\r') && commandOk ⟨rest.dropLast⟩
    | _ => false

/-- Two uppercase hexadecimal digits of a value below 256, as the spec
describes the volume-level encoding. -/
def twoHexUpper (m : Nat) : String :=
  ⟨[(if m / 16 < 10 then Char.ofNat (48 + m / 16) else Char.ofNat (55 + m / 16)),
    (if m % 16 < 10 then Char.ofNat (48 + m % 16) else Char.ofNat (55 + m % 16))]⟩

/-- Whether a character is an uppercase hexadecimal digit. -/
def isUpperHexDigit (c : Char) : Bool :=
  (48 ≤ c.toNat && c.toNat ≤ 57) || (65 ≤ c.toNat && c.toNat ≤ 70)

/-! ## Helper lemmas about the hex parser -/

theorem ne_of_isHexDigit {c : Char} (h : isHexDigitChar c = true) (d : Char)
    (hd : isHexDigitChar d = false) : c ≠ d := by
  intro he
  rw [he, hd] at h
  exact Bool.false_ne_true h

theorem hexDigit_not_space {c : Char} (h : isHexDigitChar c = true) : isPySpace c = false := by
  simp only [isHexDigitChar, hexDigitVal] at h
  split_ifs at h with h1 h2 h3
  · simp [isPySpace]; omega
  · simp [isPySpace]; omega
  · simp [isPySpace]; omega
  · simp at h

theorem dropWhile_eq_self_of_not {p : Char → Bool} :
    ∀ l : List Char, (∀ c ∈ l, p c = false) → l.dropWhile p = l := by
  intro l h
  cases l with
  | nil => rfl
  | cons c t => simp [List.dropWhile_cons, h c (by simp)]

theorem stripSpaces_of_hex {l : List Char} (h : l.all isHexDigitChar = true) :
    stripSpaces l = l := by
  have hmem : ∀ c ∈ l, isHexDigitChar c = true := List.all_eq_true.mp h
  have hns : ∀ c ∈ l, isPySpace c = false := fun c hc => hexDigit_not_space (hmem c hc)
  unfold stripSpaces
  rw [dropWhile_eq_self_of_not l hns,
    dropWhile_eq_self_of_not l.reverse (fun c hc => hns c (List.mem_reverse.mp hc))]
  exact List.reverse_reverse l

theorem parseDigitsRest_hex :
    ∀ (l : List Char) (acc : Nat), l.all isHexDigitChar = true →
      parseDigitsRest hexDigitVal 16 acc l
        = some (l.foldl (fun a c => 16 * a + (hexDigitVal c).getD 0) acc) := by
  intro l
  induction l with
  | nil => intro acc _; rfl
  | cons c t ih =>
    intro acc h
    rw [List.all_cons, Bool.and_eq_true] at h
    obtain ⟨hc, ht⟩ := h
    obtain ⟨d, hd⟩ := Option.isSome_iff_exists.mp (by rwa [isHexDigitChar] at hc)
    rw [parseDigitsRest.eq_def]
    simp only [if_neg (ne_of_isHexDigit hc '_' (by decide)), hd]
    rw [ih (16 * acc + d) ht]
    simp [List.foldl_cons, hd]

theorem parseDigitsStart_hex :
    ∀ {l : List Char}, l ≠ [] → l.all isHexDigitChar = true →
      parseDigitsStart hexDigitVal 16 l = some (hexValOfDigits l) := by
  intro l hne h
  cases l with
  | nil => exact absurd rfl hne
  | cons c t =>
    rw [List.all_cons, Bool.and_eq_true] at h
    obtain ⟨hc, ht⟩ := h
    obtain ⟨d, hd⟩ := Option.isSome_iff_exists.mp (by rwa [isHexDigitChar] at hc)
    simp only [parseDigitsStart, hd]
    rw [parseDigitsRest_hex t d ht]
    simp [hexValOfDigits, List.foldl_cons, hd]

theorem hexAfterSign_hex :
    ∀ {l : List Char}, l ≠ [] → l.all isHexDigitChar = true →
      hexAfterSign l = some (hexValOfDigits l) := by
  intro l hne h
  rcases l with _ | ⟨c0, _ | ⟨c1, rest⟩⟩
  · exact absurd rfl hne
  · exact parseDigitsStart_hex hne h
  · have h1 : isHexDigitChar c1 = true := by
      rw [List.all_cons, Bool.and_eq_true] at h
      have h2 := h.2
      rw [List.all_cons, Bool.and_eq_true] at h2
      exact h2.1
    have hcond : ¬(c0 = '0' ∧ (c1 = 'x' ∨ c1 = 'X')) := by
      rintro ⟨-, hx | hx⟩
      · exact ne_of_isHexDigit h1 'x' (by decide) hx
      · exact ne_of_isHexDigit h1 'X' (by decide) hx
    simp only [hexAfterSign, if_neg hcond]
    exact parseDigitsStart_hex hne h

theorem pyIntHex_hexDigits {s : String} (hne : s.data ≠ []) (hall : s.data.all isHexDigitChar = true) :
    pyIntHex s = some ((hexValOfDigits s.data : Nat) : Int) := by
  rw [pyIntHex, stripSpaces_of_hex hall]
  obtain ⟨l⟩ := s
  cases l with
  | nil => exact absurd rfl hne
  | cons c t =>
    have hc : isHexDigitChar c = true := by
      have hcons : (c :: t).all isHexDigitChar = true := hall
      rw [List.all_cons, Bool.and_eq_true] at hcons
      exact hcons.1
    simp only [pyIntSigned, if_neg (ne_of_isHexDigit hc '-' (by decide)),
      if_neg (ne_of_isHexDigit hc '+' (by decide))]
    rw [hexAfterSign_hex hne hall]
    rfl

/-! ## Helper lemmas about the handlers -/

theorem volume_head_plus (st : String) (resp : List Nat) (h : st.data.head? = some '+') :
    volume st resp = volume_plus st resp := by
  have hne : st ≠ "status" := by
    intro he; rw [he] at h; exact absurd h (by decide)
  obtain ⟨l⟩ := st
  cases l with
  | nil => exact absurd h (by decide)
  | cons c t =>
    have hc : c = '+' := by simpa using h
    subst hc
    rw [volume, if_neg hne]
    rfl

theorem volume_head_minus (st : String) (resp : List Nat) (h : st.data.head? = some '-') :
    volume st resp = volume_minus st resp := by
  have hne : st ≠ "status" := by
    intro he; rw [he] at h; exact absurd h (by decide)
  obtain ⟨l⟩ := st
  cases l with
  | nil => exact absurd h (by decide)
  | cons c t =>
    have hc : c = '-' := by simpa using h
    subst hc
    rw [volume, if_neg hne]
    rfl

theorem inputAliasCode_cases {s code : String} (h : inputAliasCode s = some code) :
    code = "SLI00" ∨ code = "SLI01" ∨ code = "SLI02" ∨ code = "SLI03" ∨ code = "SLI04" := by
  rw [inputAliasCode] at h
  split_ifs at h <;> simp_all

theorem r_input_sent_cases :
    ∀ (st : String) (resp : List Nat) (f : List Nat), f ∈ (r_input st resp).sent →
      f = sendFrame "SLIQSTN" ∨
        ∃ code, inputAliasCode (pyLower st) = some code ∧ f = sendFrame code := by
  intro st resp f hf
  rw [r_input] at hf
  by_cases hst : st = "status"
  · rw [if_pos hst] at hf
    rcases hda : decodeAscii resp with _ | s
    · simp only [r_input_status, hda, withAlias] at hf
      simp at hf
      exact Or.inl hf
    · simp only [r_input_status, hda, withAlias] at hf
      rcases hac : inputAliasCode (pyLower st) with _ | code
      · rw [hac] at hf
        simp at hf
        exact Or.inl hf
      · rw [hac] at hf
        simp at hf
        rcases hf with hf | hf
        · exact Or.inl hf
        · exact Or.inr ⟨code, rfl, hf⟩
  · rw [if_neg hst] at hf
    simp only [withAlias] at hf
    rcases hac : inputAliasCode (pyLower st) with _ | code
    · rw [hac] at hf
      simp at hf
    · rw [hac] at hf
      simp at hf
      exact Or.inr ⟨code, rfl, hf⟩

/-! ## Claims -/

/-- C1: for every command string `c`, the frame written to the serial
port by `send_command` is exactly the ASCII bytes of `!1`, then the
bytes of `c`, then a single carriage return (byte 13), concatenated in
that order with nothing else. -/
theorem send_command_frame_format :
    ∀ c : String, sendFrame c = asciiBytes "!1" ++ asciiBytes c ++ [13] := by
  intro c
  simp only [sendFrame, compiledCommand, asciiBytes, String.join, List.foldl]
  simp only [String.data_append, List.map_append]
  rfl

/-- C2: a relative volume adjustment reads the current percentage via
the volume query, adds (state `+<n>`) or subtracts (state `-<n>`) the
parsed delta, and passes the unclamped sum to the set path; with current
volume 50 and delta `+10` the set frame is byte-for-byte the frame of an
absolute set of 60, and an out-of-range sum such as 110 is passed
through unclamped. -/
theorem volume_relative_read_modify_write :
    (∀ (st : String) (resp : List Nat) (cur d : Int),
        st.data.head? = some '+' →
        get_volume resp = some cur →
        pyIntDec (pyStrip '+' st) = some d →
        (volume st resp).sent = [sendFrame "MVLQSTN", set_volume_frame (cur + d)]) ∧
    (∀ (st : String) (resp : List Nat) (cur d : Int),
        st.data.head? = some '-' →
        get_volume resp = some cur →
        pyIntDec (pyStrip '-' st) = some d →
        (volume st resp).sent = [sendFrame "MVLQSTN", set_volume_frame (cur - d)]) ∧
    (volume "+10" (asciiBytes "!1MVL2E\x1a")).sent
        = [sendFrame "MVLQSTN", set_volume_frame 60] ∧
    (volume "60" (asciiBytes "!1MVL2E\x1a")).sent = [set_volume_frame 60] ∧
    (volume "+60" (asciiBytes "!1MVL2E\x1a")).sent
        = [sendFrame "MVLQSTN", set_volume_frame 110] := by
  refine ⟨?_, ?_, by decide, by decide, by decide⟩
  · intro st resp cur d hh hget hdec
    rw [volume_head_plus st resp hh]
    simp only [volume_plus, hget, hdec]
  · intro st resp cur d hh hget hdec
    rw [volume_head_minus st resp hh]
    simp only [volume_minus, hget, hdec]

/-- C2 witness: the general relative law applied at current volume 50
(response `!1MVL2E\x1a`) and delta `+10`. -/
theorem volume_relative_read_modify_write_witness :
    (volume "+10" (asciiBytes "!1MVL2E\x1a")).sent
      = [sendFrame "MVLQSTN", set_volume_frame 60] :=
  volume_relative_read_modify_write.1 "+10" (asciiBytes "!1MVL2E\x1a") 50 10
    (by decide) (by decide) (by decide)

/-- C3 counterexample: the CLI state `-5` is not an absolute set at all;
it takes the relative `-` path, sends the volume query (a serial
transaction) and then a set frame, and terminates normally — no
rejection happens before a transaction. -/
theorem volume_minus5_not_rejected :
    (volume "-5" (asciiBytes "!1MVL2E\x1a")).sent
        = [sendFrame "MVLQSTN", set_volume_frame 45] ∧
    (volume "-5" (asciiBytes "!1MVL2E\x1a")).sent ≠ [] ∧
    (volume "-5" (asciiBytes "!1MVL2E\x1a")).term = Term.normal := by decide

/-- C3 amended: an absolute volume set of 150 is rejected with an error
message and exit status 1 before any frame is sent; the state `-5`,
however, is interpreted as a relative adjustment: it first performs the
query transaction and then sends a set frame for current minus 5. -/
theorem volume_range_check_absolute_only :
    (∀ resp : List Nat, volume "150" resp = ⟨[], ["Invalid volume: 150"], Term.exited 1⟩) ∧
    (∀ (resp : List Nat) (cur : Int), get_volume resp = some cur →
        (volume "-5" resp).sent = [sendFrame "MVLQSTN", set_volume_frame (cur - 5)]) := by
  refine ⟨fun resp => rfl, ?_⟩
  intro resp cur h
  rw [volume_head_minus "-5" resp (by decide)]
  simp only [volume_minus, h, show pyIntDec (pyStrip '-' "-5") = some 5 from rfl]

/-- C3 amended witness: applied at the response `!1MVL2E\x1a`
(current volume 50). -/
theorem volume_range_check_absolute_only_witness :
    (volume "-5" (asciiBytes "!1MVL2E\x1a")).sent
      = [sendFrame "MVLQSTN", set_volume_frame 45] :=
  volume_range_check_absolute_only.2 (asciiBytes "!1MVL2E\x1a") 50 (by decide)

/-- C4: for every integer percentage `v` in `[0, 100]`, `set_volume`
computes the internal level as `v * 92 / 100` with integer truncation,
formats it as exactly 2 uppercase hexadecimal digits, and sends the
`MVL` set command carrying those two digits. -/
theorem set_volume_percent_encoding :
    ∀ v : Nat, v ≤ 100 →
      set_volume_level (v : Int) = ((v * 92 / 100 : Nat) : Int) ∧
      set_volume_param (v : Int) = twoHexUpper (v * 92 / 100) ∧
      (set_volume_param (v : Int)).data.length = 2 ∧
      (set_volume_param (v : Int)).data.all isUpperHexDigit = true ∧
      set_volume_frame (v : Int) = sendFrame ("MVL" ++ twoHexUpper (v * 92 / 100)) := by
  decide

/-- C4 witness: at 60 percent the internal level is 55 (`0x37`) and the
frame carries `MVL37`. -/
theorem set_volume_percent_encoding_witness :
    set_volume_frame (60 : Int) = sendFrame ("MVL" ++ twoHexUpper 55) :=
  (set_volume_percent_encoding 60 (by decide)).2.2.2.2

/-- C5: `get_volume` on the response `!1MVL2E\x1a` returns 50; whenever
the decoded, stripped payload is a (nonempty) string of hexadecimal
digits it returns the integer truncation of `value * 100 / 92`; and it
fails (raises, modelled as `none`) whenever the payload does not parse
as hex — e.g. `!1MVLZZ\x1a` — or the response does not decode as
ASCII. -/
theorem get_volume_hex_parse :
    get_volume (asciiBytes "!1MVL2E\x1a") = some 50 ∧
    get_volume (asciiBytes "!1MVLZZ\x1a") = none ∧
    (∀ (resp : List Nat) (s : String), decodeAscii resp = some s →
        (stripVol s).data ≠ [] → (stripVol s).data.all isHexDigitChar = true →
        get_volume resp
          = some (Int.tdiv ((hexValOfDigits (stripVol s).data : Int) * 100) 92)) ∧
    (∀ (resp : List Nat) (s : String), decodeAscii resp = some s →
        pyIntHex (stripVol s) = none → get_volume resp = none) ∧
    (∀ resp : List Nat, decodeAscii resp = none → get_volume resp = none) := by
  refine ⟨by decide, by decide, ?_, ?_, ?_⟩
  · intro resp s hda hne hall
    simp only [get_volume, hda, pyIntHex_hexDigits hne hall]
  · intro resp s hda hnone
    simp only [get_volume, hda, hnone]
  · intro resp hda
    simp only [get_volume, hda]

/-- C5 witness: the general payload law applied at the response
`!1MVL2E\x1a`, whose stripped payload `2E` has value 46, giving
`46 * 100 / 92` truncated = 50. -/
theorem get_volume_hex_parse_witness :
    get_volume (asciiBytes "!1MVL2E\x1a")
      = some (Int.tdiv ((hexValOfDigits "2E".data : Int) * 100) 92) :=
  get_volume_hex_parse.2.2.1 (asciiBytes "!1MVL2E\x1a") "!1MVL2E\x1a"
    (by decide) (by decide) (by decide)

/-- C6: the power status operation always sends exactly the `PWRQSTN`
query frame and classifies the raw response bytes by exact match:
`!1PWR00\x1a` prints `Status: Off`, `!1PWR01\x1a` prints `Status: On`,
and every other byte sequence (the empty timeout response included)
prints `Status: Unknown` with the Python `repr` of the raw bytes. -/
theorem power_status_classification :
    ∀ resp : List Nat,
      (power "status" resp).sent = [sendFrame "PWRQSTN"] ∧
      (power "status" resp).term = Term.normal ∧
      (resp = asciiBytes "!1PWR00\x1a" → (power "status" resp).printed = ["Status: Off"]) ∧
      (resp = asciiBytes "!1PWR01\x1a" → (power "status" resp).printed = ["Status: On"]) ∧
      (resp ≠ asciiBytes "!1PWR00\x1a" → resp ≠ asciiBytes "!1PWR01\x1a" →
        (power "status" resp).printed
          = ["Status: Unknown (" ++ pyBytesRepr resp ++ ")"]) := by
  intro resp
  refine ⟨rfl, rfl, ?_, ?_, ?_⟩
  · intro h; subst h; decide
  · intro h; subst h; decide
  · intro h1 h2
    show [if resp = asciiBytes "!1PWR00\x1a" then "Status: Off"
          else if resp = asciiBytes "!1PWR01\x1a" then "Status: On"
          else "Status: Unknown (" ++ pyBytesRepr resp ++ ")"] = _
    rw [if_neg h1, if_neg h2]

/-- C6 witness: the classification applied at the empty (timeout)
response, which is reported as Unknown with the raw bytes `b''`. -/
theorem power_status_classification_witness :
    (power "status" ([] : List Nat)).printed = ["Status: Unknown (" ++ pyBytesRepr [] ++ ")"] ∧
    pyBytesRepr ([] : List Nat) = "b''" :=
  ⟨(power_status_classification []).2.2.2.2 (by decide) (by decide), by decide⟩

/-- C7 counterexample: `send_command` has no `try`/`finally`; when the
write raises (or the read raises), `ser.close()` is never executed and
the exception escapes — the close is not performed on every exit
path. -/
theorem send_command_leaks_on_failure :
    SerialStep.closed ∉ (send_command_run true false).1 ∧
    (send_command_run true false).2 = true ∧
    SerialStep.closed ∉ (send_command_run false true).1 ∧
    (send_command_run false true).2 = true := by decide

/-- C7 amended: the serial handle is closed exactly when both the write
and the read succeed; a write or read failure skips the close and the
exception escapes. -/
theorem send_command_close_iff_no_failure :
    ∀ writeFails readFails : Bool,
      (SerialStep.closed ∈ (send_command_run writeFails readFails).1
        ↔ writeFails = false ∧ readFails = false) := by decide

/-- C8 counterexample: a relative volume adjustment is free to leave
`[0, 100]`: with current volume 50 and delta `-60` the handler sends the
frame `!1MVL-9\r`, whose parameter `-9` is not `QSTN` and not two
hexadecimal digits in `00`–`5C`; with delta `+60` it sends `!1MVL65\r`,
whose parameter is two hex digits but with value 101 > 92 (`0x5C`). -/
theorem relative_volume_breaks_grammar :
    (volume "-60" (asciiBytes "!1MVL2E\x1a")).sent
        = [sendFrame "MVLQSTN", sendFrame "MVL-9"] ∧
    frameOk (sendFrame "MVL-9") = false ∧
    mvlParamOk "-9" = false ∧
    (volume "+60" (asciiBytes "!1MVL2E\x1a")).sent
        = [sendFrame "MVLQSTN", sendFrame "MVL65"] ∧
    frameOk (sendFrame "MVL65") = false ∧
    mvlParamOk "65" = false := by decide

/-- C8 amended: every frame sent by the power, mute and input handlers
matches the receiver grammar, as do the volume query frame and the
volume set frame for every percentage in `[0, 100]` (as guaranteed by
validation on the absolute path); the relative path, however, can pass
an out-of-range percentage to the set path, whose frame then falls
outside the grammar. -/
theorem command_grammar :
    (∀ (st : String) (resp : List Nat), ∀ f ∈ (power st resp).sent, frameOk f = true) ∧
    (∀ (st : String) (resp : List Nat), ∀ f ∈ (mute st resp).sent, frameOk f = true) ∧
    (∀ (st : String) (resp : List Nat), ∀ f ∈ (r_input st resp).sent, frameOk f = true) ∧
    frameOk (sendFrame "MVLQSTN") = true ∧
    (∀ v : Nat, v ≤ 100 → frameOk (set_volume_frame (v : Int)) = true) := by
  refine ⟨?_, ?_, ?_, by decide, by decide⟩
  · intro st resp f hf
    by_cases h1 : st = "on"
    · subst h1
      have hfe : f = sendFrame "PWR01" := by simpa [power] using hf
      subst hfe; decide
    · by_cases h2 : st = "off"
      · subst h2
        have hfe : f = sendFrame "PWR00" := by simpa [power] using hf
        subst hfe; decide
      · by_cases h3 : st = "toggle"
        · subst h3
          have hfe : f = sendFrame "PWRQSTN" := by simpa [power] using hf
          subst hfe; decide
        · by_cases h4 : st = "status"
          · subst h4
            have hfe : f = sendFrame "PWRQSTN" := by simpa [power] using hf
            subst hfe; decide
          · simp only [power, if_neg h1, if_neg h2, if_neg h3, if_neg h4] at hf
            simp at hf
  · intro st resp f hf
    by_cases h1 : st = "mute" ∨ st = "on"
    · rw [mute, if_pos h1] at hf
      have hfe : f = sendFrame "AMT01" := by simpa using hf
      subst hfe; decide
    · by_cases h2 : st = "unmute" ∨ st = "off"
      · rw [mute, if_neg h1, if_pos h2] at hf
        have hfe : f = sendFrame "AMT00" := by simpa using hf
        subst hfe; decide
      · by_cases h3 : st = "status"
        · rw [mute, if_neg h1, if_neg h2, if_pos h3] at hf
          rcases hda : decodeAscii resp with _ | s
          · rw [hda] at hf
            have hfe : f = sendFrame "AMTQSTN" := by simpa using hf
            subst hfe; decide
          · rw [hda] at hf
            have hfe : f = sendFrame "AMTQSTN" := by simpa using hf
            subst hfe; decide
        · rw [mute, if_neg h1, if_neg h2, if_neg h3] at hf
          simp at hf
  · intro st resp f hf
    rcases r_input_sent_cases st resp f hf with h | ⟨code, hac, h⟩
    · subst h; decide
    · rcases inputAliasCode_cases hac with h0 | h0 | h0 | h0 | h0 <;>
        subst h0 <;> subst h <;> decide

/-- C8 amended witness: the grammar invariant applied to the power-on
frame and to the absolute volume set frame at 60 percent. -/
theorem command_grammar_witness :
    frameOk (sendFrame "PWR01") = true ∧ frameOk (set_volume_frame (60 : Int)) = true :=
  ⟨command_grammar.1 "on" [] (sendFrame "PWR01") (by decide),
    command_grammar.2.2.2.2 60 (by decide)⟩

/-- C9: the power toggle operation sends exactly the `PWRQSTN` status
query frame — byte-for-byte the frame the status operation sends — and
not a distinct state-inverting command such as `PWR00` or `PWR01`. -/
theorem power_toggle_sends_query :
    ∀ resp : List Nat,
      (power "toggle" resp).sent = [sendFrame "PWRQSTN"] ∧
      (power "status" resp).sent = [sendFrame "PWRQSTN"] ∧
      sendFrame "PWRQSTN" = asciiBytes "!1PWRQSTN\r" ∧
      sendFrame "PWRQSTN" ≠ sendFrame "PWR01" ∧
      sendFrame "PWRQSTN" ≠ sendFrame "PWR00" :=
  fun _ => ⟨rfl, rfl, by decide, by decide, by decide⟩

/-- C10 counterexample: a mute status response that matches neither
recognized frame need not exit zero — the response `[255]` does not
decode as ASCII, so `decode('ascii')` raises after the query and the
process exits nonzero (and still prints nothing). -/
theorem mute_status_undecodable_raises :
    (mute "status" [255]).sent = [sendFrame "AMTQSTN"] ∧
    (mute "status" [255]).printed = [] ∧
    (mute "status" [255]).term = Term.raised ∧
    (mute "status" [255]).term ≠ Term.normal := by decide

/-- C10 amended: a mute status query whose response decodes as ASCII but
matches neither recognized frame prints nothing and terminates normally
(exit status zero); an input alias matching none of the known aliases
sends no frame, prints nothing, and terminates normally.  (A response
that does not decode as ASCII instead raises — see the
counterexample.) -/
theorem silent_acceptance_gaps :
    (∀ (resp : List Nat) (s : String), decodeAscii resp = some s →
        s ≠ "!1AMT00\x1a" → s ≠ "!1AMT01\x1a" →
        mute "status" resp = ⟨[sendFrame "AMTQSTN"], [], Term.normal⟩) ∧
    (∀ (st : String) (resp : List Nat), st ≠ "status" →
        inputAliasCode (pyLower st) = none →
        r_input st resp = ⟨[], [], Term.normal⟩) := by
  constructor
  · intro resp s hda h0 h1
    rw [mute, if_neg (by decide), if_neg (by decide), if_pos rfl, hda]
    simp [h0, h1]
  · intro st resp hst hac
    rw [r_input, if_neg hst]
    simp only [withAlias]
    rw [hac]

/-- C10 amended witness: applied at an ASCII but unrecognized mute
status response, and at the unrecognized input alias `tv`. -/
theorem silent_acceptance_gaps_witness :
    mute "status" (asciiBytes "!1PWR01\x1a") = ⟨[sendFrame "AMTQSTN"], [], Term.normal⟩ ∧
    r_input "tv" [1, 2, 3] = ⟨[], [], Term.normal⟩ :=
  ⟨silent_acceptance_gaps.1 (asciiBytes "!1PWR01\x1a") "!1PWR01\x1a"
      (by decide) (by decide) (by decide),
    silent_acceptance_gaps.2 "tv" [1, 2, 3] (by decide) (by decide)⟩

end Onkyo
